import Mathlib

/-!
Shallow embedding of the grooming-service core (groomer directory, review
ledger and rating aggregator) from `src/app`.  The relational store is a
pair of lists (`groomers`, `reviews`); fresh primary keys are modelled by
counters; timestamps are `Nat` values supplied by the caller; SQL `FLOAT`
ratings are modelled as exact rationals `ℚ`.
-/

namespace Grooming

/-- Status enumeration from `src/app/models/groomer.py` (`GroomerStatus`). -/
inductive GroomerStatus
  | active
  | inactive
  | deleted
deriving DecidableEq, Repr

/-- Row of the `groomers` table, from `src/app/models/groomer.py`. -/
structure Groomer where
  groomer_id : Nat
  first_name : String
  last_name : String
  location : String
  specialization : Option String
  status : GroomerStatus
  rating : ℚ
  review_count : Nat
  complaint_count : Nat
  total_bookings_count : Nat
deriving DecidableEq, Repr

/-- Row of the `reviews` table, from `src/app/models/review.py`. -/
structure Review where
  review_id : Nat
  groomer_id : Nat
  booking_id : Nat
  user_id : Nat
  rating : Nat
  comment : Option String
  created_at : Nat
deriving DecidableEq, Repr

/-- The relational store: both tables plus primary-key counters modelling
the generated unique identifiers. -/
structure DB where
  groomers : List Groomer
  reviews : List Review
  next_groomer_id : Nat
  next_review_id : Nat
deriving DecidableEq, Repr

/-- The empty store. -/
def emptyDB : DB :=
  { groomers := [], reviews := [], next_groomer_id := 0, next_review_id := 0 }

/-- `GroomerCreate` payload from `src/app/schemas/groomer.py`. -/
structure GroomerCreate where
  first_name : String
  last_name : String
  location : String
  specialization : Option String
deriving DecidableEq, Repr

/-- `GroomerUpdate` payload from `src/app/schemas/groomer.py`: every field
optional; `none` means the field was not set in the request
(pydantic `exclude_unset`). -/
structure GroomerUpdate where
  first_name : Option String
  last_name : Option String
  location : Option String
  specialization : Option (Option String)
deriving DecidableEq, Repr

/-- `ReviewCreate` payload from `src/app/schemas/review.py`. -/
structure ReviewCreate where
  booking_id : Nat
  user_id : Nat
  rating : Nat
  comment : Option String
deriving DecidableEq, Repr

/-- Python's `round(x, 2)`: round to two decimal places. -/
def round2 (q : ℚ) : ℚ := (round (100 * q) : ℤ) / 100

/-- `crud.get_groomer` (crud.py lines 32-47): first row with the given id
whose status is not `deleted`. -/
def get_groomer (db : DB) (gid : Nat) : Option Groomer :=
  db.groomers.find? (fun g => decide (g.groomer_id = gid ∧ g.status ≠ GroomerStatus.deleted))

/-- `crud.create_groomer` (crud.py lines 14-29): inserts a row with the
column defaults of `models/groomer.py` (status `active`, rating `0.0`,
all counters `0`). -/
def create_groomer (db : DB) (gin : GroomerCreate) : Groomer × DB :=
  let g : Groomer :=
    { groomer_id := db.next_groomer_id
      first_name := gin.first_name
      last_name := gin.last_name
      location := gin.location
      specialization := gin.specialization
      status := GroomerStatus.active
      rating := 0
      review_count := 0
      complaint_count := 0
      total_bookings_count := 0 }
  (g, { db with groomers := db.groomers ++ [g], next_groomer_id := db.next_groomer_id + 1 })

/-- In-place mutation of the rows holding a given primary key (the ORM
mutates the looked-up row object; rows are addressed by id). -/
def update_row (db : DB) (gid : Nat) (f : Groomer → Groomer) : DB :=
  { db with groomers := db.groomers.map (fun g => if g.groomer_id = gid then f g else g) }

/-- Applying a `GroomerUpdate` to a row: only the fields set in the request
are written (`model_dump(exclude_unset=True)` then `setattr`, crud.py
lines 88-90). -/
def apply_update (u : GroomerUpdate) (g : Groomer) : Groomer :=
  let g1 := match u.first_name with
    | some v => { g with first_name := v }
    | none => g
  let g2 := match u.last_name with
    | some v => { g1 with last_name := v }
    | none => g1
  let g3 := match u.location with
    | some v => { g2 with location := v }
    | none => g2
  match u.specialization with
  | some v => { g3 with specialization := v }
  | none => g3

/-- `crud.update_groomer` (crud.py lines 72-94): look up via `get_groomer`
(excludes deleted); on a hit, write exactly the set fields. -/
def update_groomer (db : DB) (gid : Nat) (u : GroomerUpdate) : Option Groomer × DB :=
  match get_groomer db gid with
  | none => (none, db)
  | some g => (some (apply_update u g), update_row db gid (apply_update u))

/-- `crud.soft_delete_groomer` (crud.py lines 97-115): look up by id only
(no status filter), then set status to `deleted`. -/
def soft_delete_groomer (db : DB) (gid : Nat) : Option Groomer × DB :=
  match db.groomers.find? (fun g => decide (g.groomer_id = gid)) with
  | none => (none, db)
  | some g =>
      (some { g with status := GroomerStatus.deleted },
        update_row db gid (fun h => { h with status := GroomerStatus.deleted }))

/-- Rows of the `reviews` table owned by a groomer
(`filter(Review.groomer_id == groomer_id)`). -/
def reviews_for (rs : List Review) (gid : Nat) : List Review :=
  rs.filter (fun r => decide (r.groomer_id = gid))

/-- SQL `AVG(rating)` over a set of review rows: `NULL` (i.e. `none`) on an
empty set, else the exact arithmetic mean (crud.py line 173). -/
def avg_rating (rs : List Review) : Option ℚ :=
  if rs.isEmpty then none
  else some ((rs.map (fun r => (r.rating : ℚ))).sum / rs.length)

/-- crud.py line 176: `round(float(avg_rating), 2) if avg_rating else 0.0`.
Python truthiness: both `None` and `0.0` take the `else` branch. -/
def rating_from_avg (a : Option ℚ) : ℚ :=
  match a with
  | none => 0
  | some q => if q = 0 then 0 else round2 q

/-- `crud.recalculate_groomer_rating` (crud.py lines 154-183): looked up via
`get_groomer` (so `none` for an absent or soft-deleted groomer, with no
state change); otherwise writes the recomputed average and count into the
groomer row and returns the refreshed row. -/
def recalculate_groomer_rating (db : DB) (gid : Nat) : Option Groomer × DB :=
  match get_groomer db gid with
  | none => (none, db)
  | some _ =>
      let rs := reviews_for db.reviews gid
      let db' := update_row db gid (fun g =>
        { g with rating := rating_from_avg (avg_rating rs), review_count := rs.length })
      (get_groomer db' gid, db')

/-- `crud.create_review` (crud.py lines 186-211): verify the groomer is
visible, insert the review row (fresh id, caller-supplied timestamp),
then recalculate the groomer's aggregate in the same unit of work. -/
def create_review (db : DB) (gid : Nat) (rin : ReviewCreate) (ts : Nat) : Option Review × DB :=
  match get_groomer db gid with
  | none => (none, db)
  | some _ =>
      let r : Review :=
        { review_id := db.next_review_id
          groomer_id := gid
          booking_id := rin.booking_id
          user_id := rin.user_id
          rating := rin.rating
          comment := rin.comment
          created_at := ts }
      let db1 : DB :=
        { db with reviews := db.reviews ++ [r], next_review_id := db.next_review_id + 1 }
      (some r, (recalculate_groomer_rating db1 gid).2)

/-- `crud.delete_review` (crud.py lines 239-275): look up the review by id
alone; snapshot it, delete the row, recalculate the owning groomer's
aggregate, return the snapshot. -/
def delete_review (db : DB) (rid : Nat) : Option Review × DB :=
  match db.reviews.find? (fun r => decide (r.review_id = rid)) with
  | none => (none, db)
  | some r =>
      let db1 : DB := { db with reviews := db.reviews.filter (fun s => decide (s.review_id ≠ rid)) }
      (some r, (recalculate_groomer_rating db1 r.groomer_id).2)

/-- Ordering used by `crud.get_groomer_reviews`: `created_at` descending,
then `review_id` ascending. -/
def review_order (a b : Review) : Prop :=
  b.created_at < a.created_at ∨ (a.created_at = b.created_at ∧ a.review_id ≤ b.review_id)

instance : DecidableRel review_order := fun a b => by
  unfold review_order; exact inferInstance

/-- `crud.get_groomer_reviews` (crud.py lines 214-236): filter by groomer id,
order by creation time descending then id ascending, offset/limit. -/
def get_groomer_reviews (db : DB) (gid skip lim : Nat) : List Review :=
  (((reviews_for db.reviews gid).insertionSort review_order).drop skip).take lim

/-- Ordering used by `crud.search_groomers`: `rating` descending, then
`groomer_id` ascending. -/
def groomer_order (a b : Groomer) : Prop :=
  b.rating < a.rating ∨ (a.rating = b.rating ∧ a.groomer_id ≤ b.groomer_id)

instance : DecidableRel groomer_order := fun a b => by
  unfold groomer_order; exact inferInstance

/-- SQL `column ILIKE '%pat%'` on a nullable column: `NULL` pool nothing;
otherwise a case-insensitive substring test. -/
def ilike_contains (field : Option String) (pat : String) : Bool :=
  match field with
  | none => false
  | some s => decide (pat.data.map Char.toLower <:+: s.data.map Char.toLower)

/-- Filter stage of `crud.search_groomers` (crud.py lines 140-149):
restrict to `active` rows, then apply each optional filter in turn
(Python truthiness: a `None` or empty location/specialization adds no
filter; `min_rating` is compared with `is not None`). -/
def search_pool (db : DB) (location : Option String) (special : Option String)
    (min_rating : Option ℚ) : List Groomer :=
  let q1 := db.groomers.filter (fun g => decide (g.status = GroomerStatus.active))
  let q2 := match location with
    | none => q1
    | some l => if l = "" then q1 else q1.filter (fun g => ilike_contains (some g.location) l)
  let q3 := match special with
    | none => q2
    | some s => if s = "" then q2 else q2.filter (fun g => ilike_contains g.specialization s)
  match min_rating with
  | none => q3
  | some m => q3.filter (fun g => decide (m ≤ g.rating))

/-- `crud.search_groomers` (crud.py lines 118-151): the filter stage, then
order by rating descending / id ascending and apply offset/limit. -/
def search_groomers (db : DB) (location : Option String) (special : Option String)
    (min_rating : Option ℚ) (skip lim : Nat) : List Groomer :=
  ((((search_pool db location special min_rating).insertionSort
    groomer_order).drop skip).take lim)

/-! ### The specified aggregate and the review-lifecycle state machine -/

/-- The aggregate rating the specification prescribes for a set of review
rows: the arithmetic mean rounded to 2 decimal places, and exactly `0.0`
when the set is empty. -/
def spec_rating (rs : List Review) : ℚ :=
  if rs.isEmpty then 0 else round2 ((rs.map (fun r => (r.rating : ℚ))).sum / rs.length)

/-- A groomer row carries exactly the specified aggregate of its reviews. -/
def groomer_ok (rs : List Review) (g : Groomer) : Prop :=
  g.rating = spec_rating (reviews_for rs g.groomer_id) ∧
  g.review_count = (reviews_for rs g.groomer_id).length

/-- Every groomer row carries the specified aggregate of its reviews. -/
def rating_inv (db : DB) : Prop := ∀ g ∈ db.groomers, groomer_ok db.reviews g

/-- The public operations that build up review state: groomer creation,
review submission and review deletion. -/
inductive ReviewOp
  | addGroomer (gin : GroomerCreate)
  | addReview (gid : Nat) (rin : ReviewCreate) (ts : Nat)
  | removeReview (rid : Nat)

/-- State change performed by one public operation. -/
def apply_op (db : DB) : ReviewOp → DB
  | ReviewOp.addGroomer gin => (create_groomer db gin).2
  | ReviewOp.addReview gid rin ts => (create_review db gid rin ts).2
  | ReviewOp.removeReview rid => (delete_review db rid).2

/-- State reached by a sequence of public operations. -/
def apply_ops (db : DB) : List ReviewOp → DB
  | [] => db
  | op :: ops => apply_ops (apply_op db op) ops

/-- Inductive invariant of states reachable through groomer creation,
review submission and review deletion: no row is soft-deleted, primary
keys stay below their counters and are distinct, every review has an
owning groomer row, and every aggregate is current. -/
structure Inv (db : DB) : Prop where
  status_ok : ∀ g ∈ db.groomers, g.status ≠ GroomerStatus.deleted
  gid_lt : ∀ g ∈ db.groomers, g.groomer_id < db.next_groomer_id
  rid_lt : ∀ r ∈ db.reviews, r.review_id < db.next_review_id
  owner_exists : ∀ r ∈ db.reviews, ∃ g ∈ db.groomers, g.groomer_id = r.groomer_id
  rid_nodup : (db.reviews.map Review.review_id).Nodup
  agg : rating_inv db

/-! ### Basic lemmas -/

theorem round2_zero : round2 0 = 0 := by
  unfold round2
  norm_num

/-- Row update written into the groomer row by `recalculate_groomer_rating`. -/
def recalc_fix (rs : List Review) (gid : Nat) (g : Groomer) : Groomer :=
  { g with rating := rating_from_avg (avg_rating (reviews_for rs gid))
           review_count := (reviews_for rs gid).length }

/-- The code's stored value (with the Python truthiness branch) agrees with
the specified aggregate on every review set. -/
theorem rating_from_avg_eq (rs : List Review) :
    rating_from_avg (avg_rating rs) = spec_rating rs := by
  unfold rating_from_avg avg_rating spec_rating
  by_cases he : rs.isEmpty
  · simp [he]
  · simp only [he, if_false]
    by_cases hz : ((rs.map (fun r => (r.rating : ℚ))).sum / rs.length) = 0
    · simp [hz, round2_zero]
    · simp [hz]

theorem get_groomer_some {db : DB} {gid : Nat} {g : Groomer}
    (h : get_groomer db gid = some g) :
    g ∈ db.groomers ∧ g.groomer_id = gid ∧ g.status ≠ GroomerStatus.deleted := by
  unfold get_groomer at h
  refine ⟨List.mem_of_find?_eq_some h, ?_⟩
  have := List.find?_some h
  rwa [decide_eq_true_eq] at this

theorem get_groomer_groomers {db db' : DB} (h : db.groomers = db'.groomers) (gid : Nat) :
    get_groomer db gid = get_groomer db' gid := by
  unfold get_groomer
  rw [h]

theorem update_row_reviews (db : DB) (gid : Nat) (f : Groomer → Groomer) :
    (update_row db gid f).reviews = db.reviews := rfl

/-- Looking up a groomer after an id-addressed row update that preserves the
id and status columns. -/
theorem get_groomer_update_row (db : DB) (gid : Nat) (f : Groomer → Groomer)
    (hid : ∀ g, (f g).groomer_id = g.groomer_id)
    (hst : ∀ g, (f g).status = g.status) (gid' : Nat) :
    get_groomer (update_row db gid f) gid' =
      (get_groomer db gid').map (fun g => if g.groomer_id = gid then f g else g) := by
  unfold get_groomer update_row
  rw [List.find?_map]
  have hp : ((fun g => decide (g.groomer_id = gid' ∧ g.status ≠ GroomerStatus.deleted)) ∘
      fun g => if g.groomer_id = gid then f g else g) =
      (fun g => decide (g.groomer_id = gid' ∧ g.status ≠ GroomerStatus.deleted)) := by
    funext g
    by_cases hc : g.groomer_id = gid <;> simp [Function.comp, hc, hid, hst]
  rw [hp]

theorem recalculate_none {db : DB} {gid : Nat} (h : get_groomer db gid = none) :
    recalculate_groomer_rating db gid = (none, db) := by
  unfold recalculate_groomer_rating
  rw [h]

theorem recalculate_snd {db : DB} {gid : Nat} (h : (get_groomer db gid).isSome) :
    (recalculate_groomer_rating db gid).2 = update_row db gid (recalc_fix db.reviews gid) := by
  obtain ⟨g, hg⟩ := Option.isSome_iff_exists.mp h
  unfold recalculate_groomer_rating
  rw [hg]
  rfl

theorem reviews_for_append (rs : List Review) (r : Review) (gid : Nat) :
    reviews_for (rs ++ [r]) gid =
      reviews_for rs gid ++ (if r.groomer_id = gid then [r] else []) := by
  unfold reviews_for
  rw [List.filter_append]
  by_cases hc : r.groomer_id = gid <;> simp [hc]

theorem reviews_for_filter_ne (rs : List Review) (rid gid : Nat)
    (h : ∀ s ∈ rs, s.groomer_id = gid → s.review_id ≠ rid) :
    reviews_for (rs.filter (fun s => decide (s.review_id ≠ rid))) gid = reviews_for rs gid := by
  unfold reviews_for
  rw [List.filter_filter]
  apply List.filter_congr
  intro s hs
  by_cases hg : s.groomer_id = gid
  · simp [hg, h s hs hg]
  · simp [hg]

/-- After writing the recomputed aggregate into the rows with key `gid`,
every row is current, provided every other row already was. -/
theorem rating_inv_update_recalc (db : DB) (gid : Nat)
    (h : ∀ g ∈ db.groomers, g.groomer_id ≠ gid → groomer_ok db.reviews g) :
    rating_inv (update_row db gid (recalc_fix db.reviews gid)) := by
  intro g' hg'
  unfold update_row at hg'
  simp only [List.mem_map] at hg'
  obtain ⟨g, hg, hEq⟩ := hg'
  subst hEq
  rw [update_row_reviews]
  by_cases hc : g.groomer_id = gid
  · rw [if_pos hc]
    have hid : (recalc_fix db.reviews gid g).groomer_id = gid := hc
    constructor
    · rw [hid]
      exact rating_from_avg_eq _
    · rw [hid]
      rfl
  · rw [if_neg hc]
    exact h g hg hc

/-! ### Shape lemmas for the review mutations -/

/-- The review row inserted by `create_review`. -/
def new_review (db : DB) (gid : Nat) (rin : ReviewCreate) (ts : Nat) : Review :=
  { review_id := db.next_review_id
    groomer_id := gid
    booking_id := rin.booking_id
    user_id := rin.user_id
    rating := rin.rating
    comment := rin.comment
    created_at := ts }

/-- Store state right after the insert of `create_review`, before the
aggregate recomputation. -/
def inserted_db (db : DB) (gid : Nat) (rin : ReviewCreate) (ts : Nat) : DB :=
  { db with reviews := db.reviews ++ [new_review db gid rin ts]
            next_review_id := db.next_review_id + 1 }

theorem create_review_of_none {db : DB} {gid : Nat} (rin : ReviewCreate) (ts : Nat)
    (h : get_groomer db gid = none) : create_review db gid rin ts = (none, db) := by
  unfold create_review
  rw [h]

theorem get_groomer_inserted (db : DB) (gid : Nat) (rin : ReviewCreate) (ts gid' : Nat) :
    get_groomer (inserted_db db gid rin ts) gid' = get_groomer db gid' :=
  (get_groomer_groomers rfl gid').symm

theorem create_review_of_some {db : DB} {gid : Nat} {g : Groomer} (rin : ReviewCreate) (ts : Nat)
    (h : get_groomer db gid = some g) :
    create_review db gid rin ts =
      (some (new_review db gid rin ts),
        update_row (inserted_db db gid rin ts) gid
          (recalc_fix (inserted_db db gid rin ts).reviews gid)) := by
  have hv : (get_groomer (inserted_db db gid rin ts) gid).isSome := by
    rw [get_groomer_inserted, h]
    rfl
  unfold create_review
  rw [h]
  show (some (new_review db gid rin ts),
      (recalculate_groomer_rating (inserted_db db gid rin ts) gid).2) =
    (some (new_review db gid rin ts),
      update_row (inserted_db db gid rin ts) gid (recalc_fix (inserted_db db gid rin ts).reviews gid))
  rw [recalculate_snd hv]

/-- Store state right after the row removal of `delete_review`, before the
aggregate recomputation. -/
def removed_db (db : DB) (rid : Nat) : DB :=
  { db with reviews := db.reviews.filter (fun s => decide (s.review_id ≠ rid)) }

theorem delete_review_of_none {db : DB} {rid : Nat}
    (h : db.reviews.find? (fun s => decide (s.review_id = rid)) = none) :
    delete_review db rid = (none, db) := by
  unfold delete_review
  rw [h]

theorem delete_review_of_found {db : DB} {rid : Nat} {r : Review}
    (h : db.reviews.find? (fun s => decide (s.review_id = rid)) = some r) :
    delete_review db rid =
      (some r, (recalculate_groomer_rating (removed_db db rid) r.groomer_id).2) := by
  unfold delete_review
  rw [h]
  rfl

theorem mem_update_row {db : DB} {gid : Nat} {f : Groomer → Groomer} {g' : Groomer}
    (h : g' ∈ (update_row db gid f).groomers) :
    ∃ g ∈ db.groomers, (if g.groomer_id = gid then f g else g) = g' := by
  unfold update_row at h
  simpa [List.mem_map] using h

theorem recalc_fix_status (rs : List Review) (gid : Nat) (g : Groomer) :
    (recalc_fix rs gid g).status = g.status := rfl

theorem recalc_fix_id (rs : List Review) (gid : Nat) (g : Groomer) :
    (recalc_fix rs gid g).groomer_id = g.groomer_id := rfl

/-! ### Preservation of the inductive invariant -/

theorem inv_create_groomer (db : DB) (gin : GroomerCreate) (h : Inv db) :
    Inv (create_groomer db gin).2 := by
  have hfresh : ∀ r ∈ db.reviews, r.groomer_id ≠ db.next_groomer_id := by
    intro r hr hEq
    obtain ⟨g, hg, hgid⟩ := h.owner_exists r hr
    exact absurd (hgid.trans hEq) (Nat.ne_of_lt (h.gid_lt g hg))
  have hnil : reviews_for db.reviews db.next_groomer_id = [] := by
    unfold reviews_for
    rw [List.filter_eq_nil_iff]
    intro r hr
    simpa using hfresh r hr
  constructor
  · intro g hg
    rcases List.mem_append.mp hg with hg | hg
    · exact h.status_ok g hg
    · rw [List.mem_singleton.mp hg]
      exact fun hcon => nomatch hcon
  · intro g hg
    rcases List.mem_append.mp hg with hg | hg
    · exact Nat.lt_succ_of_lt (h.gid_lt g hg)
    · rw [List.mem_singleton.mp hg]
      exact Nat.lt_succ_self _
  · exact h.rid_lt
  · intro r hr
    obtain ⟨g, hg, hgid⟩ := h.owner_exists r hr
    exact ⟨g, List.mem_append_left _ hg, hgid⟩
  · exact h.rid_nodup
  · intro g hg
    rcases List.mem_append.mp hg with hg | hg
    · exact h.agg g hg
    · rw [List.mem_singleton.mp hg]
      constructor
      · show (0 : ℚ) = spec_rating (reviews_for db.reviews db.next_groomer_id)
        rw [hnil]
        simp [spec_rating]
      · show 0 = (reviews_for db.reviews db.next_groomer_id).length
        rw [hnil]
        rfl

/-- The full inductive invariant survives writing the recomputed aggregate
into the rows with key `gid`, given the component facts about the
intermediate store. -/
theorem inv_update_recalc {db : DB} {gid : Nat}
    (hst : ∀ g ∈ db.groomers, g.status ≠ GroomerStatus.deleted)
    (hgl : ∀ g ∈ db.groomers, g.groomer_id < db.next_groomer_id)
    (hrl : ∀ r ∈ db.reviews, r.review_id < db.next_review_id)
    (how : ∀ r ∈ db.reviews, ∃ g ∈ db.groomers, g.groomer_id = r.groomer_id)
    (hnd : (db.reviews.map Review.review_id).Nodup)
    (hagg : ∀ g ∈ db.groomers, g.groomer_id ≠ gid → groomer_ok db.reviews g) :
    Inv (update_row db gid (recalc_fix db.reviews gid)) := by
  constructor
  · intro g' hg'
    obtain ⟨g₁, hg₁, hEq⟩ := mem_update_row hg'
    subst hEq
    by_cases hc : g₁.groomer_id = gid
    · rw [if_pos hc, recalc_fix_status]
      exact hst g₁ hg₁
    · rw [if_neg hc]
      exact hst g₁ hg₁
  · intro g' hg'
    obtain ⟨g₁, hg₁, hEq⟩ := mem_update_row hg'
    subst hEq
    show _ < db.next_groomer_id
    by_cases hc : g₁.groomer_id = gid
    · rw [if_pos hc, recalc_fix_id]
      exact hgl g₁ hg₁
    · rw [if_neg hc]
      exact hgl g₁ hg₁
  · intro r hr
    exact hrl r hr
  · intro r hr
    obtain ⟨g₁, hg₁, hgid₁⟩ := how r hr
    refine ⟨if g₁.groomer_id = gid then recalc_fix db.reviews gid g₁ else g₁,
      List.mem_map_of_mem _ hg₁, ?_⟩
    by_cases hc : g₁.groomer_id = gid
    · rw [if_pos hc, recalc_fix_id]
      exact hgid₁
    · rw [if_neg hc]
      exact hgid₁
  · exact hnd
  · exact rating_inv_update_recalc db gid hagg

theorem inv_create_review (db : DB) (gid : Nat) (rin : ReviewCreate) (ts : Nat) (h : Inv db) :
    Inv (create_review db gid rin ts).2 := by
  cases hg : get_groomer db gid with
  | none =>
      rw [create_review_of_none rin ts hg]
      exact h
  | some g =>
      rw [create_review_of_some rin ts hg]
      obtain ⟨hgmem, hgid, -⟩ := get_groomer_some hg
      apply inv_update_recalc
      · exact h.status_ok
      · exact h.gid_lt
      · intro r hr
        rcases List.mem_append.mp hr with hro | hrn
        · exact Nat.lt_succ_of_lt (h.rid_lt r hro)
        · rw [List.mem_singleton.mp hrn]
          exact Nat.lt_succ_self _
      · intro r hr
        rcases List.mem_append.mp hr with hro | hrn
        · exact h.owner_exists r hro
        · rw [List.mem_singleton.mp hrn]
          exact ⟨g, hgmem, hgid⟩
      · show ((db.reviews ++ [new_review db gid rin ts]).map Review.review_id).Nodup
        rw [List.map_append, List.nodup_append]
        refine ⟨h.rid_nodup, List.nodup_singleton _, ?_⟩
        show (db.reviews.map Review.review_id).Disjoint [(new_review db gid rin ts).review_id]
        rw [List.disjoint_singleton]
        intro hmem
        rw [List.mem_map] at hmem
        obtain ⟨r, hr, hEq⟩ := hmem
        exact absurd hEq (Nat.ne_of_lt (h.rid_lt r hr))
      · intro g₁ hg₁ hne
        have hold := h.agg g₁ hg₁
        unfold groomer_ok at hold ⊢
        show g₁.rating = spec_rating (reviews_for (db.reviews ++ [new_review db gid rin ts]) g₁.groomer_id) ∧
          g₁.review_count = (reviews_for (db.reviews ++ [new_review db gid rin ts]) g₁.groomer_id).length
        rw [reviews_for_append]
        have hng : (new_review db gid rin ts).groomer_id = gid := rfl
        rw [hng, if_neg (fun hEq => hne hEq.symm), List.append_nil]
        exact hold

theorem inv_delete_review (db : DB) (rid : Nat) (h : Inv db) :
    Inv (delete_review db rid).2 := by
  cases hf : db.reviews.find? (fun s => decide (s.review_id = rid)) with
  | none =>
      rw [delete_review_of_none hf]
      exact h
  | some r =>
      rw [delete_review_of_found hf]
      have hrmem : r ∈ db.reviews := List.mem_of_find?_eq_some hf
      have hrid : r.review_id = rid := by
        have := List.find?_some hf
        rwa [decide_eq_true_eq] at this
      obtain ⟨gw, hgw, hgwid⟩ := h.owner_exists r hrmem
      have hvis : (get_groomer (removed_db db rid) r.groomer_id).isSome := by
        unfold get_groomer
        rw [List.find?_isSome]
        exact ⟨gw, hgw, by simp [hgwid, h.status_ok gw hgw]⟩
      rw [recalculate_snd hvis]
      have hsub : (removed_db db rid).reviews.Sublist db.reviews := List.filter_sublist _
      apply inv_update_recalc
      · exact h.status_ok
      · exact h.gid_lt
      · intro s hs
        exact h.rid_lt s (hsub.mem hs)
      · intro s hs
        exact h.owner_exists s (hsub.mem hs)
      · exact List.Nodup.sublist (hsub.map _) h.rid_nodup
      · intro g₁ hg₁ hne
        have hold := h.agg g₁ hg₁
        unfold groomer_ok at hold ⊢
        show g₁.rating = spec_rating (reviews_for (removed_db db rid).reviews g₁.groomer_id) ∧
          g₁.review_count = (reviews_for (removed_db db rid).reviews g₁.groomer_id).length
        have hrw : reviews_for (removed_db db rid).reviews g₁.groomer_id =
            reviews_for db.reviews g₁.groomer_id := by
          apply reviews_for_filter_ne
          intro s hs hsg hsid
          have hsr : s = r := List.inj_on_of_nodup_map h.rid_nodup hs hrmem (hsid.trans hrid.symm)
          subst hsr
          exact hne (hsg ▸ rfl)
        rw [hrw]
        exact hold

theorem inv_apply_op (db : DB) (op : ReviewOp) (h : Inv db) : Inv (apply_op db op) := by
  cases op with
  | addGroomer gin => exact inv_create_groomer db gin h
  | addReview gid rin ts => exact inv_create_review db gid rin ts h
  | removeReview rid => exact inv_delete_review db rid h

theorem inv_apply_ops (db : DB) (ops : List ReviewOp) (h : Inv db) : Inv (apply_ops db ops) := by
  induction ops generalizing db with
  | nil => exact h
  | cons op ops ih => exact ih _ (inv_apply_op db op h)

theorem inv_empty : Inv emptyDB := by
  refine ⟨?_, ?_, ?_, ?_, ?_, ?_⟩ <;>
    first
      | exact List.nodup_nil
      | (intro x hx; exact absurd hx (List.not_mem_nil x))

/-! ### Recalculation on a visible groomer -/

theorem recalculate_of_some {db : DB} {gid : Nat} {g : Groomer}
    (h : get_groomer db gid = some g) :
    recalculate_groomer_rating db gid =
      (some (recalc_fix db.reviews gid g), update_row db gid (recalc_fix db.reviews gid)) := by
  obtain ⟨-, hgid, -⟩ := get_groomer_some h
  unfold recalculate_groomer_rating
  rw [h]
  show (get_groomer (update_row db gid (recalc_fix db.reviews gid)) gid,
      update_row db gid (recalc_fix db.reviews gid)) = _
  rw [get_groomer_update_row db gid _ (recalc_fix_id db.reviews gid)
    (recalc_fix_status db.reviews gid) gid, h]
  simp [hgid]

/-! ### Concrete scenario: ratings [5,4,3,5,4], then deletions -/

/-- Scenario groomer payload. -/
def ginA : GroomerCreate :=
  { first_name := "Ann", last_name := "Lee", location := "Rome", specialization := none }

/-- Scenario review payload with a given rating. -/
def rinR (n : Nat) : ReviewCreate := { booking_id := 7, user_id := 9, rating := n, comment := none }

def sdb0 : DB := (create_groomer emptyDB ginA).2

def sdb1 : DB := (create_review sdb0 0 (rinR 5) 1).2

def sdb2 : DB := (create_review sdb1 0 (rinR 4) 2).2

def sdb3 : DB := (create_review sdb2 0 (rinR 3) 3).2

def sdb4 : DB := (create_review sdb3 0 (rinR 5) 4).2

def sdb5 : DB := (create_review sdb4 0 (rinR 4) 5).2

def sdb6 : DB := (delete_review sdb5 2).2

def sdb7 : DB := (delete_review (delete_review (delete_review (delete_review sdb6 0).2 1).2 3).2 4).2

/-- Scenario store with one rating-5 review whose owner is then soft-deleted. -/
def sdel : DB := (soft_delete_groomer sdb1 0).2

/-! ### Evaluation helpers for concrete aggregates -/

theorem spec_rating_eval (rs : List Review) (l : List Nat) (h : rs.map Review.rating = l)
    (hne : l ≠ []) :
    spec_rating rs = round2 ((l.map (Nat.cast : Nat → ℚ)).sum / l.length) := by
  have hsum : rs.map (fun r => (r.rating : ℚ)) = (rs.map Review.rating).map (Nat.cast : Nat → ℚ) := by
    rw [List.map_map]
    rfl
  have hlen : rs.length = l.length := by
    rw [← h, List.length_map]
  have hrs : ¬ rs.isEmpty = true := by
    intro he
    rw [List.isEmpty_iff] at he
    subst he
    simp at h
    exact hne h
  unfold spec_rating
  rw [if_neg hrs, hsum, h, hlen]

theorem spec_rating_nil (rs : List Review) (h : rs.map Review.rating = []) :
    spec_rating rs = 0 := by
  have : rs = [] := List.map_eq_nil_iff.mp h
  subst this
  rfl

/-! ### C1 and C2 -/

/-- C1: for every groomer and every sequence of review creations and
deletions applied through the public operations (starting from the empty
store, with groomer creations interleaved), the groomer's stored rating
equals the 2-decimal rounding of the mean of the ratings of its
currently-existing reviews (exactly 0 when it has none), and its stored
review_count equals the exact current count of its reviews. -/
theorem C1_aggregate_invariant (ops : List ReviewOp) :
    ∀ g ∈ (apply_ops emptyDB ops).groomers,
      g.rating = spec_rating (reviews_for (apply_ops emptyDB ops).reviews g.groomer_id) ∧
      g.review_count = (reviews_for (apply_ops emptyDB ops).reviews g.groomer_id).length :=
  (inv_apply_ops emptyDB ops inv_empty).agg

/-- Witness for C1 at a concrete one-operation history. -/
theorem C1_aggregate_invariant_witness :
    (create_groomer emptyDB ginA).1.rating =
      spec_rating (reviews_for (apply_ops emptyDB [ReviewOp.addGroomer ginA]).reviews
        (create_groomer emptyDB ginA).1.groomer_id) ∧
    (create_groomer emptyDB ginA).1.review_count =
      (reviews_for (apply_ops emptyDB [ReviewOp.addGroomer ginA]).reviews
        (create_groomer emptyDB ginA).1.groomer_id).length :=
  C1_aggregate_invariant [ReviewOp.addGroomer ginA] (create_groomer emptyDB ginA).1
    (List.mem_singleton_self _)

/-- C2: recalculation on any visible groomer stores the rounded mean of all
its reviews' ratings (0 when there are none) and their exact count; and the
concrete history with ratings [5,4,3,5,4] yields 4.2 with count 5, then
4.5 with count 4 after the rating-3 review is deleted, then 0 with count 0
after all reviews are deleted. -/
theorem C2_recalculate_correct :
    (∀ (db : DB) (gid : Nat) (g : Groomer), get_groomer db gid = some g →
      ∃ g', recalculate_groomer_rating db gid =
          (some g', update_row db gid (recalc_fix db.reviews gid)) ∧
        g'.rating = spec_rating (reviews_for db.reviews gid) ∧
        g'.review_count = (reviews_for db.reviews gid).length) ∧
    (get_groomer sdb5 0).map Groomer.rating = some (21/5) ∧
    (get_groomer sdb5 0).map Groomer.review_count = some 5 ∧
    (get_groomer sdb6 0).map Groomer.rating = some (9/2) ∧
    (get_groomer sdb6 0).map Groomer.review_count = some 4 ∧
    (get_groomer sdb7 0).map Groomer.rating = some 0 ∧
    (get_groomer sdb7 0).map Groomer.review_count = some 0 := by
  refine ⟨?_, ?_, by decide, ?_, by decide, ?_, by decide⟩
  · intro db gid g h
    refine ⟨recalc_fix db.reviews gid g, recalculate_of_some h, ?_, rfl⟩
    show rating_from_avg (avg_rating (reviews_for db.reviews gid)) = _
    exact rating_from_avg_eq _
  · have h1 : (get_groomer sdb5 0).map Groomer.rating =
        some (rating_from_avg (avg_rating (reviews_for sdb5.reviews 0))) := rfl
    have h2 : (reviews_for sdb5.reviews 0).map Review.rating = [5, 4, 3, 5, 4] := by decide
    rw [h1, rating_from_avg_eq, spec_rating_eval _ _ h2 (by decide), Option.some_inj]
    norm_num [round2, round_eq]
  · have h1 : (get_groomer sdb6 0).map Groomer.rating =
        some (rating_from_avg (avg_rating (reviews_for sdb6.reviews 0))) := rfl
    have h2 : (reviews_for sdb6.reviews 0).map Review.rating = [5, 4, 5, 4] := by decide
    rw [h1, rating_from_avg_eq, spec_rating_eval _ _ h2 (by decide), Option.some_inj]
    norm_num [round2, round_eq]
  · have h1 : (get_groomer sdb7 0).map Groomer.rating =
        some (rating_from_avg (avg_rating (reviews_for sdb7.reviews 0))) := rfl
    have h2 : (reviews_for sdb7.reviews 0).map Review.rating = [] := by decide
    rw [h1, rating_from_avg_eq, spec_rating_nil _ h2]

/-- Witness for C2's general conjunct at a concrete store. -/
theorem C2_recalculate_correct_witness :
    ∃ g', recalculate_groomer_rating sdb0 0 =
        (some g', update_row sdb0 0 (recalc_fix sdb0.reviews 0)) ∧
      g'.rating = spec_rating (reviews_for sdb0.reviews 0) ∧
      g'.review_count = (reviews_for sdb0.reviews 0).length :=
  C2_recalculate_correct.1 sdb0 0 (create_groomer emptyDB ginA).1 rfl

/-! ### C3: transactional boundary around review mutation + recomputation -/

/-- `session_scope` from `src/app/database.py` lines 138-158: run the body,
commit its final state on success, roll the store back to the initial
state when the body raises. -/
def session_scope {α : Type} (db : DB) (body : DB → Except Unit (α × DB)) :
    Except Unit α × DB :=
  match body db with
  | Except.ok (a, db') => (Except.ok a, db')
  | Except.error e => (Except.error e, db)

/-- `crud.create_review` as the body of one `session_scope` transaction,
with `fault` injecting a persistence failure (an exception) at the
aggregate-recomputation step. -/
def create_review_body (fault : Bool) (gid : Nat) (rin : ReviewCreate) (ts : Nat)
    (db : DB) : Except Unit (Option Review × DB) :=
  match get_groomer db gid with
  | none => Except.ok (none, db)
  | some _ =>
      if fault then Except.error ()
      else Except.ok (some (new_review db gid rin ts),
        (recalculate_groomer_rating (inserted_db db gid rin ts) gid).2)

/-- `crud.delete_review` as the body of one `session_scope` transaction,
with `fault` injecting a persistence failure at the
aggregate-recomputation step. -/
def delete_review_body (fault : Bool) (rid : Nat) (db : DB) :
    Except Unit (Option Review × DB) :=
  match db.reviews.find? (fun r => decide (r.review_id = rid)) with
  | none => Except.ok (none, db)
  | some r =>
      if fault then Except.error ()
      else Except.ok (some r, (recalculate_groomer_rating (removed_db db rid) r.groomer_id).2)

theorem get_groomer_create_review {db : DB} {gid : Nat} {g : Groomer} (rin : ReviewCreate)
    (ts : Nat) (h : get_groomer db gid = some g) :
    get_groomer (create_review db gid rin ts).2 gid =
      some (recalc_fix (inserted_db db gid rin ts).reviews gid g) := by
  obtain ⟨-, hgid, -⟩ := get_groomer_some h
  rw [create_review_of_some rin ts h]
  show get_groomer (update_row (inserted_db db gid rin ts) gid
    (recalc_fix (inserted_db db gid rin ts).reviews gid)) gid = _
  rw [get_groomer_update_row _ _ _ (recalc_fix_id _ _) (recalc_fix_status _ _) gid,
    get_groomer_inserted, h]
  simp [hgid]

/-- C3: for both review mutations, the recomputation runs inside the same
transaction as the mutation: when the recomputation step fails the whole
transaction rolls back to the initial store, and when it completes, the
committed store is exactly the mutation-plus-recomputation result, in which
the review row and the freshly recomputed aggregate appear together. -/
theorem C3_mutation_and_recompute_atomic :
    (∀ (db : DB) (gid : Nat) (rin : ReviewCreate) (ts : Nat),
      (session_scope db (create_review_body true gid rin ts)).2 = db) ∧
    (∀ (db : DB) (gid : Nat) (rin : ReviewCreate) (ts : Nat),
      session_scope db (create_review_body false gid rin ts) =
        (Except.ok (create_review db gid rin ts).1, (create_review db gid rin ts).2)) ∧
    (∀ (db : DB) (rid : Nat), (session_scope db (delete_review_body true rid)).2 = db) ∧
    (∀ (db : DB) (rid : Nat),
      session_scope db (delete_review_body false rid) =
        (Except.ok (delete_review db rid).1, (delete_review db rid).2)) ∧
    (∀ (db : DB) (gid : Nat) (rin : ReviewCreate) (ts : Nat) (g : Groomer),
      get_groomer db gid = some g →
      (create_review db gid rin ts).2.reviews = db.reviews ++ [new_review db gid rin ts] ∧
      ∃ g', get_groomer (create_review db gid rin ts).2 gid = some g' ∧
        g'.rating = spec_rating (reviews_for (create_review db gid rin ts).2.reviews gid) ∧
        g'.review_count = (reviews_for (create_review db gid rin ts).2.reviews gid).length) := by
  refine ⟨?_, ?_, ?_, ?_, ?_⟩
  · intro db gid rin ts
    unfold session_scope create_review_body
    cases hg : get_groomer db gid <;> rfl
  · intro db gid rin ts
    unfold session_scope create_review_body create_review
    cases hg : get_groomer db gid <;> rfl
  · intro db rid
    unfold session_scope delete_review_body
    cases hf : db.reviews.find? (fun r => decide (r.review_id = rid)) <;> rfl
  · intro db rid
    unfold session_scope delete_review_body delete_review
    cases hf : db.reviews.find? (fun r => decide (r.review_id = rid)) <;> rfl
  · intro db gid rin ts g h
    have hrev : (create_review db gid rin ts).2.reviews =
        db.reviews ++ [new_review db gid rin ts] := by
      rw [create_review_of_some rin ts h]
      rfl
    refine ⟨hrev, recalc_fix (inserted_db db gid rin ts).reviews gid g,
      get_groomer_create_review rin ts h, ?_, ?_⟩
    · show rating_from_avg (avg_rating (reviews_for (inserted_db db gid rin ts).reviews gid)) = _
      rw [rating_from_avg_eq, hrev]
      rfl
    · show (reviews_for (inserted_db db gid rin ts).reviews gid).length = _
      rw [hrev]
      rfl

/-- Witness for C3's consistency conjunct at a concrete store. -/
theorem C3_mutation_and_recompute_atomic_witness :
    (create_review sdb0 0 (rinR 5) 1).2.reviews = sdb0.reviews ++ [new_review sdb0 0 (rinR 5) 1] ∧
    ∃ g', get_groomer (create_review sdb0 0 (rinR 5) 1).2 0 = some g' ∧
      g'.rating = spec_rating (reviews_for (create_review sdb0 0 (rinR 5) 1).2.reviews 0) ∧
      g'.review_count = (reviews_for (create_review sdb0 0 (rinR 5) 1).2.reviews 0).length :=
  C3_mutation_and_recompute_atomic.2.2.2.2 sdb0 0 (rinR 5) 1 (create_groomer emptyDB ginA).1 rfl

/-! ### C4: review creation against absent or soft-deleted groomers -/

/-- C4: creating a review for a groomer id that is absent or soft-deleted
(`get_groomer` misses) reports not-found and leaves the store untouched;
for a visible groomer it persists exactly one new review row carrying the
request's fields and returns it. -/
theorem C4_create_review_visibility :
    (∀ (db : DB) (gid : Nat) (rin : ReviewCreate) (ts : Nat),
      get_groomer db gid = none → create_review db gid rin ts = (none, db)) ∧
    (∀ (db : DB) (gid : Nat) (rin : ReviewCreate) (ts : Nat) (g : Groomer),
      get_groomer db gid = some g →
      ∃ r, (create_review db gid rin ts).1 = some r ∧
        (create_review db gid rin ts).2.reviews = db.reviews ++ [r] ∧
        r.groomer_id = gid ∧ r.rating = rin.rating ∧ r.booking_id = rin.booking_id ∧
        r.user_id = rin.user_id ∧ r.comment = rin.comment) := by
  constructor
  · intro db gid rin ts h
    exact create_review_of_none rin ts h
  · intro db gid rin ts g h
    refine ⟨new_review db gid rin ts, ?_, ?_, rfl, rfl, rfl, rfl, rfl⟩
    · rw [create_review_of_some rin ts h]
    · rw [create_review_of_some rin ts h]
      rfl

/-- Witness for C4 at a concrete store: a soft-deleted groomer, then a
visible one. -/
theorem C4_create_review_visibility_witness :
    create_review sdel 0 (rinR 4) 2 = (none, sdel) ∧
    ∃ r, (create_review sdb0 0 (rinR 5) 1).1 = some r ∧
      (create_review sdb0 0 (rinR 5) 1).2.reviews = sdb0.reviews ++ [r] ∧
      r.groomer_id = 0 ∧ r.rating = (rinR 5).rating ∧ r.booking_id = (rinR 5).booking_id ∧
      r.user_id = (rinR 5).user_id ∧ r.comment = (rinR 5).comment :=
  ⟨C4_create_review_visibility.1 sdel 0 (rinR 4) 2 rfl,
   C4_create_review_visibility.2 sdb0 0 (rinR 5) 1 (create_groomer emptyDB ginA).1 rfl⟩

/-! ### C5 and C10: review deletion and invisible owners -/

theorem recalculate_reviews (db : DB) (gid : Nat) :
    (recalculate_groomer_rating db gid).2.reviews = db.reviews := by
  cases hg : get_groomer db gid with
  | none => rw [recalculate_none hg]
  | some g =>
      rw [recalculate_snd (by rw [hg]; rfl)]
      rfl

/-- C5 counterexample: in a store whose only groomer is soft-deleted and
owns one review, deleting that review succeeds, removes the row and
returns the snapshot, but the owner's stored aggregate is left stale
(count 1 with zero remaining reviews), so the aggregate is not recomputed
for every existing review as the claim states. -/
theorem C5_delete_review_counterexample :
    (delete_review sdel 0).1 = some (new_review sdb0 0 (rinR 5) 1) ∧
    (delete_review sdel 0).2.reviews = [] ∧
    ¬ ((delete_review sdel 0).2.groomers.map Groomer.review_count =
       (delete_review sdel 0).2.groomers.map (fun g =>
         (reviews_for (delete_review sdel 0).2.reviews g.groomer_id).length)) := by
  refine ⟨by decide, by decide, by decide⟩

/-- C5 (amended): review deletion looks up the review by id alone; an
absent id reports not-found and changes nothing; an existing review is
removed and its pre-deletion snapshot returned, and the owning groomer's
aggregate is recomputed when the owner is visible, while for a soft-deleted
or absent owner the recomputation is skipped and every groomer row is left
unchanged. -/
theorem C5_delete_review_amended :
    (∀ (db : DB) (rid : Nat),
      db.reviews.find? (fun s => decide (s.review_id = rid)) = none →
      delete_review db rid = (none, db)) ∧
    (∀ (db : DB) (rid : Nat) (r : Review),
      db.reviews.find? (fun s => decide (s.review_id = rid)) = some r →
      (delete_review db rid).1 = some r ∧
      (delete_review db rid).2.reviews = db.reviews.filter (fun s => decide (s.review_id ≠ rid)) ∧
      (get_groomer db r.groomer_id = none → (delete_review db rid).2.groomers = db.groomers) ∧
      (∀ g, get_groomer db r.groomer_id = some g →
        ∃ g', get_groomer (delete_review db rid).2 r.groomer_id = some g' ∧
          g'.rating = spec_rating (reviews_for (delete_review db rid).2.reviews r.groomer_id) ∧
          g'.review_count =
            (reviews_for (delete_review db rid).2.reviews r.groomer_id).length)) := by
  constructor
  · intro db rid h
    exact delete_review_of_none h
  · intro db rid r h
    have hrev : (delete_review db rid).2.reviews =
        db.reviews.filter (fun s => decide (s.review_id ≠ rid)) := by
      rw [delete_review_of_found h]
      exact recalculate_reviews _ _
    refine ⟨by rw [delete_review_of_found h], hrev, ?_, ?_⟩
    · intro hnone
      rw [delete_review_of_found h]
      have hx : get_groomer (removed_db db rid) r.groomer_id = none := by
        rw [(@get_groomer_groomers db (removed_db db rid) rfl r.groomer_id).symm]
        exact hnone
      rw [recalculate_none hx]
      rfl
    · intro g hg
      have hvis : get_groomer (removed_db db rid) r.groomer_id = some g := by
        rw [(@get_groomer_groomers db (removed_db db rid) rfl r.groomer_id).symm]
        exact hg
      obtain ⟨-, hgid, -⟩ := get_groomer_some hvis
      refine ⟨recalc_fix (removed_db db rid).reviews r.groomer_id g, ?_, ?_, ?_⟩
      · rw [delete_review_of_found h, recalculate_of_some hvis]
        show get_groomer (update_row (removed_db db rid) r.groomer_id
          (recalc_fix (removed_db db rid).reviews r.groomer_id)) r.groomer_id = _
        rw [get_groomer_update_row _ _ _ (recalc_fix_id _ _) (recalc_fix_status _ _), hvis]
        simp [hgid]
      · show rating_from_avg (avg_rating (reviews_for (removed_db db rid).reviews r.groomer_id)) = _
        rw [rating_from_avg_eq, hrev]
        rfl
      · show (reviews_for (removed_db db rid).reviews r.groomer_id).length = _
        rw [hrev]
        rfl

/-- Witness for C5's amended theorem at a concrete store with a visible
owner. -/
theorem C5_delete_review_amended_witness :
    (delete_review sdb1 0).1 = some (new_review sdb0 0 (rinR 5) 1) ∧
    (delete_review sdb1 0).2.reviews =
      sdb1.reviews.filter (fun s => decide (s.review_id ≠ 0)) ∧
    (get_groomer sdb1 (new_review sdb0 0 (rinR 5) 1).groomer_id = none →
      (delete_review sdb1 0).2.groomers = sdb1.groomers) ∧
    (∀ g, get_groomer sdb1 (new_review sdb0 0 (rinR 5) 1).groomer_id = some g →
      ∃ g', get_groomer (delete_review sdb1 0).2 (new_review sdb0 0 (rinR 5) 1).groomer_id =
          some g' ∧
        g'.rating = spec_rating (reviews_for (delete_review sdb1 0).2.reviews
          (new_review sdb0 0 (rinR 5) 1).groomer_id) ∧
        g'.review_count = (reviews_for (delete_review sdb1 0).2.reviews
          (new_review sdb0 0 (rinR 5) 1).groomer_id).length) :=
  C5_delete_review_amended.2 sdb1 0 (new_review sdb0 0 (rinR 5) 1) rfl

/-- C10: recalculation on an absent or soft-deleted groomer reports
not-found and leaves the store unchanged; consequently deleting a review
whose owner is soft-deleted still removes the row and returns the snapshot
while every groomer row (hence every stored aggregate) stays as it was. -/
theorem C10_recalculate_invisible_owner :
    (∀ (db : DB) (gid : Nat), get_groomer db gid = none →
      recalculate_groomer_rating db gid = (none, db)) ∧
    (∀ (db : DB) (rid : Nat) (r : Review),
      db.reviews.find? (fun s => decide (s.review_id = rid)) = some r →
      get_groomer db r.groomer_id = none →
      (delete_review db rid).1 = some r ∧
      (delete_review db rid).2.reviews = db.reviews.filter (fun s => decide (s.review_id ≠ rid)) ∧
      (delete_review db rid).2.groomers = db.groomers) := by
  constructor
  · intro db gid h
    exact recalculate_none h
  · intro db rid r h hnone
    have hinv : get_groomer (removed_db db rid) r.groomer_id = none := by
      rw [(@get_groomer_groomers db (removed_db db rid) rfl r.groomer_id).symm]
      exact hnone
    refine ⟨by rw [delete_review_of_found h], ?_, ?_⟩
    · rw [delete_review_of_found h]
      exact recalculate_reviews _ _
    · rw [delete_review_of_found h, recalculate_none hinv]
      rfl

/-- Witness for C10 at the concrete soft-deleted-owner store. -/
theorem C10_recalculate_invisible_owner_witness :
    recalculate_groomer_rating sdel 0 = (none, sdel) ∧
    ((delete_review sdel 0).1 = some (new_review sdb0 0 (rinR 5) 1) ∧
     (delete_review sdel 0).2.reviews =
       sdel.reviews.filter (fun s => decide (s.review_id ≠ 0)) ∧
     (delete_review sdel 0).2.groomers = sdel.groomers) :=
  ⟨C10_recalculate_invisible_owner.1 sdel 0 rfl,
   C10_recalculate_invisible_owner.2 sdel 0 (new_review sdb0 0 (rinR 5) 1) rfl rfl⟩

/-! ### Ordering facts for search and review listing -/

instance : IsTrans Groomer groomer_order := by
  constructor
  intro a b c hab hbc
  rcases hab with h1 | ⟨h1, h2⟩ <;> rcases hbc with h3 | ⟨h3, h4⟩
  · exact Or.inl (h3.trans h1)
  · exact Or.inl (h3 ▸ h1)
  · exact Or.inl (h3.trans_eq h1.symm)
  · exact Or.inr ⟨h1.trans h3, h2.trans h4⟩

instance : IsTotal Groomer groomer_order := by
  constructor
  intro a b
  rcases lt_trichotomy a.rating b.rating with h | h | h
  · exact Or.inr (Or.inl h)
  · rcases Nat.le_total a.groomer_id b.groomer_id with h' | h'
    · exact Or.inl (Or.inr ⟨h, h'⟩)
    · exact Or.inr (Or.inr ⟨h.symm, h'⟩)
  · exact Or.inl (Or.inl h)

instance : IsTrans Review review_order := by
  constructor
  intro a b c hab hbc
  rcases hab with h1 | ⟨h1, h2⟩ <;> rcases hbc with h3 | ⟨h3, h4⟩
  · exact Or.inl (h3.trans h1)
  · exact Or.inl (h3 ▸ h1)
  · exact Or.inl (h3.trans_eq h1.symm)
  · exact Or.inr ⟨h1.trans h3, h2.trans h4⟩

instance : IsTotal Review review_order := by
  constructor
  intro a b
  rcases lt_trichotomy a.created_at b.created_at with h | h | h
  · exact Or.inr (Or.inl h)
  · rcases Nat.le_total a.review_id b.review_id with h' | h'
    · exact Or.inl (Or.inr ⟨h, h'⟩)
    · exact Or.inr (Or.inr ⟨h.symm, h'⟩)
  · exact Or.inl (Or.inl h)

/-! ### C6: search semantics -/

/-- Whether a groomer passes the location filter: no filter or an empty
filter string pool everything (Python truthiness), otherwise a
case-insensitive substring test on the location column. -/
def location_pass (filt : Option String) (g : Groomer) : Bool :=
  match filt with
  | none => true
  | some l => if l = "" then true else ilike_contains (some g.location) l

/-- Whether a groomer passes the specialization filter: no filter or an
empty filter string pool everything, otherwise a case-insensitive
substring test on the nullable specialization column. -/
def special_pass (filt : Option String) (g : Groomer) : Bool :=
  match filt with
  | none => true
  | some s => if s = "" then true else ilike_contains g.specialization s

/-- Whether a groomer passes the inclusive minimum-rating filter. -/
def rating_pass (filt : Option ℚ) (g : Groomer) : Bool :=
  match filt with
  | none => true
  | some m => decide (m ≤ g.rating)

theorem mem_search_pool (db : DB) (loc spc : Option String) (mr : Option ℚ) (g : Groomer) :
    g ∈ search_pool db loc spc mr ↔
      g ∈ db.groomers ∧ g.status = GroomerStatus.active ∧
      location_pass loc g = true ∧ special_pass spc g = true ∧ rating_pass mr g = true := by
  rcases loc with _ | l <;> rcases spc with _ | s <;> rcases mr with _ | m <;>
    simp only [search_pool, location_pass, special_pass, rating_pass] <;>
    (try split_ifs) <;>
    (simp [List.mem_filter, and_assoc]) <;>
    (intro hmem) <;>
    tauto

/-- C6: search returns only `active` groomers, keeps exactly those passing
the case-insensitive substring filters and the inclusive minimum-rating
bound (a missing or empty filter passes everything), orders by rating
descending then id ascending, and paginates with the given offset and a
limit in [1,100]. -/
theorem C6_search_semantics (db : DB) (loc spc : Option String) (mr : Option ℚ)
    (skip lim : Nat) (h1 : 1 ≤ lim) (h2 : lim ≤ 100) :
    ∃ pool : List Groomer,
      (∀ g, g ∈ pool ↔ g ∈ db.groomers ∧ g.status = GroomerStatus.active ∧
        location_pass loc g = true ∧ special_pass spc g = true ∧ rating_pass mr g = true) ∧
      List.Sorted groomer_order pool ∧
      search_groomers db loc spc mr skip lim = (pool.drop skip).take lim ∧
      (∀ g ∈ search_groomers db loc spc mr skip lim,
        g.status = GroomerStatus.active ∧ location_pass loc g = true ∧
        special_pass spc g = true ∧ rating_pass mr g = true) ∧
      List.Sorted groomer_order (search_groomers db loc spc mr skip lim) ∧
      (search_groomers db loc spc mr skip lim).length ≤ lim := by
  refine ⟨(search_pool db loc spc mr).insertionSort groomer_order, ?_, ?_, rfl, ?_, ?_, ?_⟩
  · intro g
    rw [(List.perm_insertionSort groomer_order _).mem_iff]
    exact mem_search_pool db loc spc mr g
  · exact List.sorted_insertionSort groomer_order _
  · intro g hg
    have hs : g ∈ (search_pool db loc spc mr).insertionSort groomer_order :=
      (List.drop_sublist _ _).mem ((List.take_sublist _ _).mem hg)
    have := (mem_search_pool db loc spc mr g).mp
      ((List.perm_insertionSort groomer_order _).mem_iff.mp hs)
    exact this.2
  · exact List.Pairwise.sublist ((List.take_sublist _ _).trans (List.drop_sublist _ _))
      (List.sorted_insertionSort groomer_order _)
  · exact List.length_take_le _ _

/-- Witness for C6 at a concrete store and request. -/
theorem C6_search_semantics_witness :
    ∃ pool : List Groomer,
      (∀ g, g ∈ pool ↔ g ∈ sdb0.groomers ∧ g.status = GroomerStatus.active ∧
        location_pass none g = true ∧ special_pass none g = true ∧
        rating_pass none g = true) ∧
      List.Sorted groomer_order pool ∧
      search_groomers sdb0 none none none 0 100 = (pool.drop 0).take 100 ∧
      (∀ g ∈ search_groomers sdb0 none none none 0 100,
        g.status = GroomerStatus.active ∧ location_pass none g = true ∧
        special_pass none g = true ∧ rating_pass none g = true) ∧
      List.Sorted groomer_order (search_groomers sdb0 none none none 0 100) ∧
      (search_groomers sdb0 none none none 0 100).length ≤ 100 :=
  C6_search_semantics sdb0 none none none 0 100 (by decide) (by decide)

/-! ### C7: soft delete -/

theorem find_id_update_row (db : DB) (gid : Nat) (f : Groomer → Groomer)
    (hid : ∀ g, (f g).groomer_id = g.groomer_id) (gid' : Nat) :
    (update_row db gid f).groomers.find? (fun g => decide (g.groomer_id = gid')) =
      (db.groomers.find? (fun g => decide (g.groomer_id = gid'))).map
        (fun g => if g.groomer_id = gid then f g else g) := by
  unfold update_row
  rw [List.find?_map]
  have hp : ((fun g => decide (g.groomer_id = gid')) ∘
      fun g => if g.groomer_id = gid then f g else g) =
      (fun g => decide (g.groomer_id = gid')) := by
    funext g
    by_cases hc : g.groomer_id = gid <;> simp [Function.comp, hc, hid]
  rw [hp]

/-- C7: soft delete is looked up by id alone, so it reports not-found only
for an id that does not exist at all; on any existing groomer (whatever its
status) it sets the status to `deleted` and succeeds, a subsequent `Get`
misses, and a repeated soft delete still succeeds. -/
theorem C7_soft_delete_idempotent :
    (∀ (db : DB) (gid : Nat),
      db.groomers.find? (fun g => decide (g.groomer_id = gid)) = none →
      soft_delete_groomer db gid = (none, db)) ∧
    (∀ (db : DB) (gid : Nat) (g : Groomer),
      db.groomers.find? (fun g => decide (g.groomer_id = gid)) = some g →
      (soft_delete_groomer db gid).1 = some { g with status := GroomerStatus.deleted } ∧
      get_groomer (soft_delete_groomer db gid).2 gid = none ∧
      ((soft_delete_groomer (soft_delete_groomer db gid).2 gid).1).isSome) := by
  constructor
  · intro db gid h
    unfold soft_delete_groomer
    rw [h]
  · intro db gid g h
    have hsnd : (soft_delete_groomer db gid).2 =
        update_row db gid (fun x => { x with status := GroomerStatus.deleted }) := by
      unfold soft_delete_groomer
      rw [h]
    refine ⟨by unfold soft_delete_groomer; rw [h], ?_, ?_⟩
    · rw [hsnd]
      unfold get_groomer update_row
      rw [List.find?_eq_none]
      intro x hx
      rw [List.mem_map] at hx
      obtain ⟨g₁, hg₁, hEq⟩ := hx
      subst hEq
      by_cases hc : g₁.groomer_id = gid
      · simp [hc]
      · simp [hc]
    · rw [hsnd]
      have hf := find_id_update_row db gid
        (fun x => { x with status := GroomerStatus.deleted }) (fun g => rfl) gid
      unfold soft_delete_groomer
      rw [hf, h]
      rfl

/-- Witness for C7 at a concrete store. -/
theorem C7_soft_delete_idempotent_witness :
    (soft_delete_groomer sdb0 0).1 =
      some { (create_groomer emptyDB ginA).1 with status := GroomerStatus.deleted } ∧
    get_groomer (soft_delete_groomer sdb0 0).2 0 = none ∧
    ((soft_delete_groomer (soft_delete_groomer sdb0 0).2 0).1).isSome :=
  C7_soft_delete_idempotent.2 sdb0 0 (create_groomer emptyDB ginA).1 rfl

/-! ### C8: partial update -/

theorem apply_update_fields (u : GroomerUpdate) (g : Groomer) :
    (apply_update u g).groomer_id = g.groomer_id ∧
    (apply_update u g).status = g.status ∧
    (apply_update u g).rating = g.rating ∧
    (apply_update u g).review_count = g.review_count ∧
    (apply_update u g).complaint_count = g.complaint_count ∧
    (apply_update u g).total_bookings_count = g.total_bookings_count ∧
    (apply_update u g).first_name = u.first_name.getD g.first_name ∧
    (apply_update u g).last_name = u.last_name.getD g.last_name ∧
    (apply_update u g).location = u.location.getD g.location ∧
    (apply_update u g).specialization = u.specialization.getD g.specialization := by
  unfold apply_update
  rcases u with ⟨f, l, lo, sp⟩
  rcases f <;> rcases l <;> rcases lo <;> rcases sp <;> simp

/-- C8: update reports not-found for an absent or soft-deleted groomer;
on a visible groomer it writes exactly the fields present in the request
(each unset field keeps its value), never changes status, rating,
review_count, complaint_count or total_bookings_count, and the stored row
equals the returned one. -/
theorem C8_update_partial :
    (∀ (db : DB) (gid : Nat) (u : GroomerUpdate),
      get_groomer db gid = none → update_groomer db gid u = (none, db)) ∧
    (∀ (db : DB) (gid : Nat) (u : GroomerUpdate) (g : Groomer),
      get_groomer db gid = some g →
      (update_groomer db gid u).1 = some (apply_update u g) ∧
      get_groomer (update_groomer db gid u).2 gid = some (apply_update u g) ∧
      (update_groomer db gid u).2.reviews = db.reviews ∧
      (apply_update u g).status = g.status ∧
      (apply_update u g).rating = g.rating ∧
      (apply_update u g).review_count = g.review_count ∧
      (apply_update u g).complaint_count = g.complaint_count ∧
      (apply_update u g).total_bookings_count = g.total_bookings_count ∧
      (apply_update u g).first_name = u.first_name.getD g.first_name ∧
      (apply_update u g).last_name = u.last_name.getD g.last_name ∧
      (apply_update u g).location = u.location.getD g.location ∧
      (apply_update u g).specialization = u.specialization.getD g.specialization) := by
  constructor
  · intro db gid u h
    unfold update_groomer
    rw [h]
  · intro db gid u g h
    obtain ⟨-, hgid, -⟩ := get_groomer_some h
    have hflds := apply_update_fields u g
    have hsnd : (update_groomer db gid u).2 = update_row db gid (apply_update u) := by
      unfold update_groomer
      rw [h]
    refine ⟨by unfold update_groomer; rw [h], ?_, by rw [hsnd]; rfl,
      hflds.2.1, hflds.2.2.1, hflds.2.2.2.1, hflds.2.2.2.2.1, hflds.2.2.2.2.2.1,
      hflds.2.2.2.2.2.2.1, hflds.2.2.2.2.2.2.2.1, hflds.2.2.2.2.2.2.2.2.1,
      hflds.2.2.2.2.2.2.2.2.2⟩
    rw [hsnd]
    rw [get_groomer_update_row db gid (apply_update u)
      (fun x => (apply_update_fields u x).1) (fun x => (apply_update_fields u x).2.1) gid, h]
    simp [hgid]

/-- Request payload setting only the location field. -/
def upd_loc : GroomerUpdate :=
  { first_name := none, last_name := none, location := some "Oslo", specialization := none }

/-- Witness for C8 at a concrete store and a request setting only the
location field. -/
theorem C8_update_partial_witness :
    (update_groomer sdb0 0 upd_loc).1 =
      some (apply_update upd_loc (create_groomer emptyDB ginA).1) ∧
    get_groomer (update_groomer sdb0 0 upd_loc).2 0 =
      some (apply_update upd_loc (create_groomer emptyDB ginA).1) ∧
    (update_groomer sdb0 0 upd_loc).2.reviews = sdb0.reviews ∧
    (apply_update upd_loc (create_groomer emptyDB ginA).1).status =
      (create_groomer emptyDB ginA).1.status ∧
    (apply_update upd_loc (create_groomer emptyDB ginA).1).rating =
      (create_groomer emptyDB ginA).1.rating ∧
    (apply_update upd_loc (create_groomer emptyDB ginA).1).review_count =
      (create_groomer emptyDB ginA).1.review_count ∧
    (apply_update upd_loc (create_groomer emptyDB ginA).1).complaint_count =
      (create_groomer emptyDB ginA).1.complaint_count ∧
    (apply_update upd_loc (create_groomer emptyDB ginA).1).total_bookings_count =
      (create_groomer emptyDB ginA).1.total_bookings_count ∧
    (apply_update upd_loc (create_groomer emptyDB ginA).1).first_name =
      upd_loc.first_name.getD (create_groomer emptyDB ginA).1.first_name ∧
    (apply_update upd_loc (create_groomer emptyDB ginA).1).last_name =
      upd_loc.last_name.getD (create_groomer emptyDB ginA).1.last_name ∧
    (apply_update upd_loc (create_groomer emptyDB ginA).1).location =
      upd_loc.location.getD (create_groomer emptyDB ginA).1.location ∧
    (apply_update upd_loc (create_groomer emptyDB ginA).1).specialization =
      upd_loc.specialization.getD (create_groomer emptyDB ginA).1.specialization :=
  C8_update_partial.2 sdb0 0 upd_loc (create_groomer emptyDB ginA).1 rfl

/-! ### C9: review listing -/

theorem soft_delete_reviews (db : DB) (gid : Nat) :
    (soft_delete_groomer db gid).2.reviews = db.reviews := by
  unfold soft_delete_groomer
  cases db.groomers.find? (fun g => decide (g.groomer_id = gid)) <;> rfl

/-- C9: listing a groomer's reviews keeps exactly the reviews owned by the
given id, ordered by creation time descending then id ascending, with
offset pagination and a limit in [1,100]; soft-deleting any groomer does
not change the result. -/
theorem C9_list_reviews (db : DB) (gid skip lim : Nat) (h1 : 1 ≤ lim) (h2 : lim ≤ 100) :
    ∃ rows : List Review,
      (∀ r, r ∈ rows ↔ r ∈ db.reviews ∧ r.groomer_id = gid) ∧
      List.Sorted review_order rows ∧
      get_groomer_reviews db gid skip lim = (rows.drop skip).take lim ∧
      (∀ r ∈ get_groomer_reviews db gid skip lim, r.groomer_id = gid) ∧
      List.Sorted review_order (get_groomer_reviews db gid skip lim) ∧
      (get_groomer_reviews db gid skip lim).length ≤ lim ∧
      (∀ gid', get_groomer_reviews (soft_delete_groomer db gid').2 gid skip lim =
        get_groomer_reviews db gid skip lim) := by
  refine ⟨(reviews_for db.reviews gid).insertionSort review_order, ?_, ?_, rfl, ?_, ?_, ?_, ?_⟩
  · intro r
    rw [(List.perm_insertionSort review_order _).mem_iff]
    simp [reviews_for, List.mem_filter]
  · exact List.sorted_insertionSort review_order _
  · intro r hr
    have hs : r ∈ reviews_for db.reviews gid :=
      (List.perm_insertionSort review_order _).mem_iff.mp
        ((List.drop_sublist _ _).mem ((List.take_sublist _ _).mem hr))
    have := List.mem_filter.mp hs
    simpa using this.2
  · exact List.Pairwise.sublist ((List.take_sublist _ _).trans (List.drop_sublist _ _))
      (List.sorted_insertionSort review_order _)
  · exact List.length_take_le _ _
  · intro gid'
    unfold get_groomer_reviews
    rw [soft_delete_reviews]

/-- Witness for C9 at a concrete store. -/
theorem C9_list_reviews_witness :
    ∃ rows : List Review,
      (∀ r, r ∈ rows ↔ r ∈ sdb1.reviews ∧ r.groomer_id = 0) ∧
      List.Sorted review_order rows ∧
      get_groomer_reviews sdb1 0 0 100 = (rows.drop 0).take 100 ∧
      (∀ r ∈ get_groomer_reviews sdb1 0 0 100, r.groomer_id = 0) ∧
      List.Sorted review_order (get_groomer_reviews sdb1 0 0 100) ∧
      (get_groomer_reviews sdb1 0 0 100).length ≤ 100 ∧
      (∀ gid', get_groomer_reviews (soft_delete_groomer sdb1 gid').2 0 0 100 =
        get_groomer_reviews sdb1 0 0 100) :=
  C9_list_reviews sdb1 0 0 100 (by decide) (by decide)

end Grooming
